import Mathlib

/-!
Shallow embedding of the mersey-job-scraper repository's core logic:
the table walker, record identity hashing, dedupe-and-persist loop,
retry wrapper, date normalizer and process exit codes, together with
theorems settling the specification claims.
-/

/- ## Character and string helpers (JS regex character classes) -/

/-- JS whitespace class `\s` (the members relevant to this code base). -/
def isJsSpace (c : Char) : Bool :=
  c = ' ' || c = '\t' || c = '\n' || c = '\r' || c.toNat = 11 || c.toNat = 12 ||
  c.toNat = 160 || c.toNat = 0xFEFF

/-- JS word-character class `\w` = `[A-Za-z0-9_]`. -/
def isWordChar (c : Char) : Bool :=
  (('a' ≤ c && c ≤ 'z') || ('A' ≤ c && c ≤ 'Z') || c.isDigit || c = '_')

/-- ASCII letter (`[A-Za-z]`, as matched case-insensitively by `[A-Z]` with the `i` flag). -/
def isAsciiLetter (c : Char) : Bool :=
  ('a' ≤ c && c ≤ 'z') || ('A' ≤ c && c ≤ 'Z')

/-- JS `String.prototype.trim()`: strip whitespace from both ends. -/
def jsTrimL (s : List Char) : List Char :=
  ((s.dropWhile isJsSpace).reverse.dropWhile isJsSpace).reverse

def jsTrim (s : String) : String := (jsTrimL s.data).asString

/-- JS `replace(/\s+/g, ' ')`: collapse every whitespace run to a single space
(fuelled by the list length, which bounds the recursion depth). -/
def collapseWsL : Nat → List Char → List Char
  | 0, s => s
  | _, [] => []
  | fuel + 1, c :: rest =>
    if isJsSpace c then ' ' :: collapseWsL fuel (rest.dropWhile isJsSpace)
    else c :: collapseWsL fuel rest

def collapseWs (s : String) : String := (collapseWsL s.data.length s.data).asString

/-- JS `String.prototype.toLowerCase()` (ASCII range, which is all this repository feeds it). -/
def lowerStr (s : String) : String := (s.data.map Char.toLower).asString

/- ## MD5 (crypto.createHash('md5')) -/

def M32 : Nat := 4294967296
def mask32 : Nat := 4294967295

def add32 (a b : Nat) : Nat := (a + b) % M32
def not32 (a : Nat) : Nat := Nat.xor a mask32
def rotl32 (x n : Nat) : Nat := ((x <<< n) % M32) ||| (x >>> (32 - n))

structure MDState where
  a : Nat
  b : Nat
  c : Nat
  d : Nat
deriving DecidableEq, Repr

def md5F (b c d : Nat) : Nat := (b &&& c) ||| ((not32 b) &&& d)
def md5G (b c d : Nat) : Nat := (d &&& b) ||| ((not32 d) &&& c)
def md5H (b c d : Nat) : Nat := Nat.xor (Nat.xor b c) d
def md5I (b c d : Nat) : Nat := Nat.xor c (b ||| (not32 d))

def md5K : List Nat :=
  [0xd76aa478, 0xe8c7b756, 0x242070db, 0xc1bdceee,
   0xf57c0faf, 0x4787c62a, 0xa8304613, 0xfd469501,
   0x698098d8, 0x8b44f7af, 0xffff5bb1, 0x895cd7be,
   0x6b901122, 0xfd987193, 0xa679438e, 0x49b40821,
   0xf61e2562, 0xc040b340, 0x265e5a51, 0xe9b6c7aa,
   0xd62f105d, 0x02441453, 0xd8a1e681, 0xe7d3fbc8,
   0x21e1cde6, 0xc33707d6, 0xf4d50d87, 0x455a14ed,
   0xa9e3e905, 0xfcefa3f8, 0x676f02d9, 0x8d2a4c8a,
   0xfffa3942, 0x8771f681, 0x6d9d6122, 0xfde5380c,
   0xa4beea44, 0x4bdecfa9, 0xf6bb4b60, 0xbebfbc70,
   0x289b7ec6, 0xeaa127fa, 0xd4ef3085, 0x04881d05,
   0xd9d4d039, 0xe6db99e5, 0x1fa27cf8, 0xc4ac5665,
   0xf4292244, 0x432aff97, 0xab9423a7, 0xfc93a039,
   0x655b59c3, 0x8f0ccc92, 0xffeff47d, 0x85845dd1,
   0x6fa87e4f, 0xfe2ce6e0, 0xa3014314, 0x4e0811a1,
   0xf7537e82, 0xbd3af235, 0x2ad7d2bb, 0xeb86d391]

def md5S : List Nat :=
  [7, 12, 17, 22, 7, 12, 17, 22, 7, 12, 17, 22, 7, 12, 17, 22,
   5, 9, 14, 20, 5, 9, 14, 20, 5, 9, 14, 20, 5, 9, 14, 20,
   4, 11, 16, 23, 4, 11, 16, 23, 4, 11, 16, 23, 4, 11, 16, 23,
   6, 10, 15, 21, 6, 10, 15, 21, 6, 10, 15, 21, 6, 10, 15, 21]

def md5Round (m : Nat → Nat) (st : MDState) (i : Nat) : MDState :=
  let f :=
    if i < 16 then md5F st.b st.c st.d
    else if i < 32 then md5G st.b st.c st.d
    else if i < 48 then md5H st.b st.c st.d
    else md5I st.b st.c st.d
  let g :=
    if i < 16 then i
    else if i < 32 then (5 * i + 1) % 16
    else if i < 48 then (3 * i + 5) % 16
    else (7 * i) % 16
  let x := add32 (add32 (add32 st.a f) (md5K.getD i 0)) (m g)
  ⟨st.d, add32 st.b (rotl32 x (md5S.getD i 0)), st.b, st.c⟩

def md5Block (m : Nat → Nat) (st : MDState) : MDState :=
  let r := (List.range 64).foldl (md5Round m) st
  ⟨add32 st.a r.a, add32 st.b r.b, add32 st.c r.c, add32 st.d r.d⟩

/-- Split a word list into 16-word blocks (fuelled by the list length). -/
def chunk16 : Nat → List Nat → List (List Nat)
  | 0, _ => []
  | _, [] => []
  | fuel + 1, ws => ws.take 16 :: chunk16 fuel (ws.drop 16)

/-- MD5 padding: append 0x80, zero-pad to 56 mod 64, append 64-bit LE bit length. -/
def md5Pad (msg : List Nat) : List Nat :=
  let L := msg.length
  let z := (56 + 64 - ((L + 1) % 64)) % 64
  msg ++ [0x80] ++ List.replicate z 0 ++
    (List.range 8).map (fun k => ((L * 8) >>> (8 * k)) % 256)

/-- Little-endian bytes to 32-bit words. -/
def bytesToWords : Nat → List Nat → List Nat
  | 0, _ => []
  | _, [] => []
  | fuel + 1, bs =>
    (bs.getD 0 0 + 256 * bs.getD 1 0 + 65536 * bs.getD 2 0 + 16777216 * bs.getD 3 0)
      :: bytesToWords fuel (bs.drop 4)

def wordLEBytes (w : Nat) : List Nat :=
  [w % 256, (w >>> 8) % 256, (w >>> 16) % 256, (w >>> 24) % 256]

def hexDigit (n : Nat) : Char := if n < 10 then Char.ofNat (48 + n) else Char.ofNat (87 + n)

def byteHex (b : Nat) : List Char := [hexDigit (b / 16), hexDigit (b % 16)]

def md5Init : MDState := ⟨0x67452301, 0xefcdab89, 0x98badcfe, 0x10325476⟩

/-- Byte string (ASCII codes) to lowercase hex MD5 digest. -/
def md5Bytes (bs : List Nat) : String :=
  let ws := bytesToWords (md5Pad bs).length (md5Pad bs)
  let blocks := chunk16 ws.length ws
  let fin := blocks.foldl (fun st blk => md5Block (fun g => blk.getD g 0) st) md5Init
  ((([fin.a, fin.b, fin.c, fin.d].map wordLEBytes).flatten.map byteHex).flatten).asString

def md5Hex (s : String) : String := md5Bytes (s.data.map Char.toNat)

/- ## Record identity (part_000 createJobId) -/

/-- Source `createJobId(date, event, doctor)`:
MD5 hex of the lower-cased, whitespace-collapsed, trimmed pipe-joined fields. -/
def createJobId (date event doctor : String) : String :=
  md5Hex (jsTrim (collapseWs (lowerStr (date ++ "|" ++ event ++ "|" ++ doctor))))

/- ## Candidate records and the dedupe-and-persist loop (part_000) -/

/-- A candidate record produced by the table walker:
`{ date, eventName, doctorName }`. -/
structure Job where
  date : String
  eventName : String
  doctorName : String
deriving DecidableEq, Repr

def jobIdOf (j : Job) : String := createJobId j.date j.eventName j.doctorName

attribute [irreducible] jobIdOf

/-- The dedupe loop of `mainScraper`: skip sentinel dates, then for each candidate
check the store (`isJobNew`) and on absence push it to `newJobs` and upsert its id
(`saveJobToHistory`). The store is modelled by its set of document keys, with
read-after-write visibility (Firestore `getDoc` after `setDoc`). -/
def processJobs : List Job → List String → List Job × List String
  | [], store => ([], store)
  | j :: rest, store =>
    if j.date = "Unknown Date" then processJobs rest store
    else if jobIdOf j ∈ store then processJobs rest store
    else
      let r := processJobs rest (jobIdOf j :: store)
      (j :: r.1, r.2)

/- ## Table walker (part_000 page.evaluate row walk) -/

/-- Match `\d{1,2}:` at the front of a list (greedy two digits, backtracking to one),
returning the remainder. -/
def matchD12Colon (s : List Char) : Option (List Char) :=
  match s with
  | a :: b :: c :: rest =>
    if a.isDigit && b.isDigit && c = ':' then some rest
    else if a.isDigit && b = ':' then some (c :: rest)
    else none
  | [a, b] => if a.isDigit && b = ':' then some [] else none
  | _ => none

/-- Match exactly `\d{2}` at the front, returning the remainder. -/
def matchDD : List Char → Option (List Char)
  | a :: b :: rest => if a.isDigit && b.isDigit then some rest else none
  | _ => none

/-- Match `/\d{1,2}:\d{2}\s*-\s*\d{1,2}:\d{2}/` at the start of the list;
returns the number of characters consumed. -/
def matchTimeRangeAt (s : List Char) : Option Nat := do
  let r1 ← matchD12Colon s
  let r2 ← matchDD r1
  let r3 := r2.dropWhile isJsSpace
  let r4 ← (match r3 with | '-' :: rest => some rest | _ => none)
  let r5 := r4.dropWhile isJsSpace
  let r6 ← matchD12Colon r5
  let r7 ← matchDD r6
  pure (s.length - r7.length)

/-- Does the time-range pattern match anywhere in the list? -/
def hasTimeRange : List Char → Bool
  | [] => false
  | c :: rest => (matchTimeRangeAt (c :: rest)).isSome || hasTimeRange rest

/-- Source `isTimeRange(text)`: `/\d{1,2}:\d{2}\s*-\s*\d{1,2}:\d{2}/.test(text)`. -/
def isTimeRange (s : String) : Bool := hasTimeRange s.data

/-- Remove every time-range match (global replace with the empty string),
fuelled by the list length. -/
def stripTimeRangesL : Nat → List Char → List Char
  | 0, s => s
  | _, [] => []
  | fuel + 1, c :: rest =>
    match matchTimeRangeAt (c :: rest) with
    | some n => stripTimeRangesL fuel ((c :: rest).drop n)
    | none => c :: stripTimeRangesL fuel rest

/-- Source `cells[1].replace(/\d{1,2}:\d{2}\s*-\s*\d{1,2}:\d{2}/g, '')`. -/
def stripTimeRanges (s : String) : String := (stripTimeRangesL s.data.length s.data).asString

/-- Source `isDateRow(text)`: `/^(Mon|Tue|Wed|Thu|Fri|Sat|Sun)/i.test(text)`. -/
def isDateRow (s : String) : Bool :=
  let l := s.data.map Char.toLower
  ["mon", "tue", "wed", "thu", "fri", "sat", "sun"].any (fun p => l.take 3 = p.data)

/-- The row walk of `mainScraper`'s `page.evaluate` callback: classify each row as a
date-heading row, a time-range row or a role-match row, threading the
`currentDate` / `currentEvent` context and emitting candidate records in order. -/
def walkRows (target : String) : List (List String) → String → String → List Job
  | [], _, _ => []
  | cells :: rest, curDate, curEvent =>
    match cells with
    | [] => walkRows target rest curDate curEvent
    | col0 :: _ =>
      if isDateRow col0 && !isTimeRange col0 then
        walkRows target rest col0 "Unknown Event"
      else if isTimeRange col0 then
        if cells.length > 1 then
          let e0 := jsTrim (stripTimeRanges (cells.getD 1 ""))
          let ev := if e0 = "" then jsTrim (cells.getD 1 "") else e0
          if cells.length > 2 && cells.getD 2 "" = target then
            let docName := if cells.length > 4 then cells.getD 4 "" else "Unassigned"
            if ev ≠ "Unknown Event" then
              ⟨curDate, ev, docName⟩ :: walkRows target rest curDate ev
            else walkRows target rest curDate ev
          else walkRows target rest curDate ev
        else walkRows target rest curDate curEvent
      else if col0 = target then
        let docName := if cells.length > 2 then cells.getD 2 "" else "Unassigned"
        if curDate ≠ "Unknown Date" && curEvent ≠ "Unknown Event" then
          ⟨curDate, curEvent, docName⟩ :: walkRows target rest curDate curEvent
        else walkRows target rest curDate curEvent
      else walkRows target rest curDate curEvent

/-- The full table walk, starting from the sentinel context. -/
def tableWalk (target : String) (rows : List (List String)) : List Job :=
  walkRows target rows "Unknown Date" "Unknown Event"

/- ## Retry wrapper (index.js retry) -/

/-- The body of `retry`'s while loop. `r` is the number of attempts remaining,
`n` the attempt number reported on the next failure, `calls` counts invocations
of `fn` (which is indexed by invocation), and `log` records `onRetry`
invocations as `(attempt, error, delay)`. The result `.ok none` models the
`undefined` returned when the loop body never runs. -/
def retryGo {E A : Type} (fn : Nat → Except E A) (baseDelay : Nat) :
    Nat → Nat → Nat → List (Nat × E × Nat) → Except E (Option A) × Nat × List (Nat × E × Nat)
  | 0, _, calls, log => (.ok none, calls, log)
  | r + 1, n, calls, log =>
    match fn calls with
    | .ok a => (.ok (some a), calls + 1, log)
    | .error e =>
      if r = 0 then (.error e, calls + 1, log)
      else retryGo fn baseDelay r (n + 1) (calls + 1) (log ++ [(n, e, baseDelay * 2 ^ (n - 1))])

/-- Source `retry(fn, { attempts, baseDelay, onRetry })`: returns the outcome, the number
of times `fn` was invoked, and the list of `onRetry` invocations. -/
def retry {E A : Type} (fn : Nat → Except E A) (attempts : Int) (baseDelay : Nat) :
    Except E (Option A) × Nat × List (Nat × E × Nat) :=
  retryGo fn baseDelay attempts.toNat 1 0 []

/- ## Entrypoint exit codes -/

/-- Result of `runScraper` in index.js: `{success: true, processed}` or
`{success: false, error}`. -/
inductive RunResult where
  | ok (processed : Nat)
  | fail (msg : String)
deriving DecidableEq, Repr

/-- Result of `mainScraper` in part_000: `{status: "success", new}` or
`{status: "error", message}`. -/
inductive ScrapeResult where
  | success (newCount : Nat)
  | error (msg : String)
deriving DecidableEq, Repr

/-- index.js entrypoint IIFE: exit 0 when `result.success`, 2 otherwise,
1 when `runScraper` itself throws. -/
def exitCodeIndex : Except String RunResult → Nat
  | .ok (.ok _) => 0
  | .ok (.fail _) => 2
  | .error _ => 1

/-- part_000 entrypoint IIFE: `await mainScraper(); process.exit(0);` —
the result is discarded and the exit code is always 0. -/
def exitCodePart000 (_r : ScrapeResult) : Nat := 0

/- ## Regex scanning machinery for the date normalizer (index.js) -/

/-- Is the optional character a word character (`\b` bookkeeping)?
`none` stands for the string edge. -/
def isWordB : Option Char → Bool
  | none => false
  | some c => isWordChar c

/-- Case-sensitive literal match at the front; returns the remainder. -/
def matchLit : List Char → List Char → Option (List Char)
  | [], s => some s
  | _ :: _, [] => none
  | p :: ps, c :: cs => if c = p then matchLit ps cs else none

/-- Case-insensitive literal match at the front; returns the remainder. -/
def matchLitCI : List Char → List Char → Option (List Char)
  | [], s => some s
  | _ :: _, [] => none
  | p :: ps, c :: cs => if c.toLower = p.toLower then matchLitCI ps cs else none

/-- Global regex replace: scan left to right, at each position run the matcher
(which receives the previous character for `\b` checks and returns the number of
characters consumed); on a match emit the replacement and continue after it. -/
def gsubL (m : Option Char → List Char → Option Nat) (repl : List Char) :
    Nat → Option Char → List Char → List Char
  | 0, _, s => s
  | _, _, [] => []
  | fuel + 1, prev, c :: rest =>
    match m prev (c :: rest) with
    | some n =>
      if n = 0 then c :: gsubL m repl fuel (some c) rest
      else repl ++ gsubL m repl fuel (some ((c :: rest).getD (n - 1) c)) ((c :: rest).drop n)
    | none => c :: gsubL m repl fuel (some c) rest

def gsub (m : Option Char → List Char → Option Nat) (repl : String) (s : String) : String :=
  (gsubL m repl.data s.data.length none s.data).asString

/-- Non-global regex replace: replace only the first match. -/
def gsubFirstL (m : Option Char → List Char → Option Nat) (repl : List Char) :
    Nat → Option Char → List Char → List Char
  | 0, _, s => s
  | _, _, [] => []
  | fuel + 1, prev, c :: rest =>
    match m prev (c :: rest) with
    | some n => if n = 0 then c :: rest else repl ++ (c :: rest).drop n
    | none => c :: gsubFirstL m repl fuel (some c) rest

def gsubFirst (m : Option Char → List Char → Option Nat) (repl : String) (s : String) : String :=
  (gsubFirstL m repl.data s.data.length none s.data).asString

/-- JS `regex.test`: does the matcher succeed at some position? -/
def anyMatchL (m : Option Char → List Char → Option Nat) :
    Nat → Option Char → List Char → Bool
  | 0, _, _ => false
  | _, _, [] => false
  | fuel + 1, prev, c :: rest => (m prev (c :: rest)).isSome || anyMatchL m fuel (some c) rest

def testPat (m : Option Char → List Char → Option Nat) (s : String) : Bool :=
  anyMatchL m s.data.length none s.data

/-- Matcher for `\bword\b` (case-sensitive; used on the already-lowercased string). -/
def matchWordAt (w : List Char) (prev : Option Char) (s : List Char) : Option Nat :=
  if isWordB prev then none
  else
    match matchLit w s with
    | some rest => if isWordB rest.head? then none else some w.length
    | none => none

def hasWord (w : String) (s : String) : Bool := testPat (matchWordAt w.data) s

/-- Matcher for `/\bat\s+/i` (the `at` time introducer). -/
def matchAtTok (prev : Option Char) (s : List Char) : Option Nat :=
  if isWordB prev then none
  else
    match matchLitCI ['a', 't'] s with
    | some rest =>
      let sp := (rest.takeWhile isJsSpace).length
      if sp = 0 then none else some (2 + sp)
    | none => none

/- Timezone strip `/\b(?:[A-Z]{2,5}|GMT[+\-]?\d{1,2}|UTC[+\-]?\d{1,2}|[A-Z]{1,4} ?GMT)\b/gi`.
With the `i` flag, `[A-Z]` matches any ASCII letter, so the first alternative
matches every standalone word of 2 to 5 letters. -/

/-- Alternative `[A-Z]{2,5}` (case-insensitive) with trailing `\b`: only the whole
letter run can match, and only when it has length 2 to 5. -/
def tzAltA (s : List Char) : Option Nat :=
  let r := (s.takeWhile isAsciiLetter).length
  if 2 ≤ r && r ≤ 5 && !isWordB ((s.drop r).head?) then some r else none

/-- Alternatives `GMT[+\-]?\d{1,2}\b` / `UTC[+\-]?\d{1,2}\b` (case-insensitive). -/
def tzAltNum (name : List Char) (s : List Char) : Option Nat :=
  match matchLitCI name s with
  | none => none
  | some rest =>
    let signed : Nat × List Char :=
      match rest with
      | c :: r2 => if c = '+' || c = '-' then (1, r2) else (0, c :: r2)
      | [] => (0, [])
    let dRun := (signed.2.takeWhile Char.isDigit).length
    if (dRun = 1 || dRun = 2) && !isWordB ((signed.2.drop dRun).head?) then
      some (name.length + signed.1 + dRun)
    else none

/-- Alternative `[A-Z]{1,4} ?GMT\b` (case-insensitive), greedy on the letter count
with backtracking from 4 letters down to 1. -/
def tzAltDGo (s : List Char) : Nat → Option Nat
  | 0 => none
  | k + 1 =>
    let afterL := s.drop (k + 1)
    let withSpace : Option Nat :=
      match afterL with
      | ' ' :: r2 =>
        match matchLitCI ['g', 'm', 't'] r2 with
        | some r3 => if isWordB r3.head? then none else some (k + 1 + 4)
        | none => none
      | _ => none
    let noSpace : Option Nat :=
      match matchLitCI ['g', 'm', 't'] afterL with
      | some r3 => if isWordB r3.head? then none else some (k + 1 + 3)
      | none => none
    withSpace <|> noSpace <|> tzAltDGo s k

/-- The full timezone matcher, alternatives tried in source order. -/
def matchTZ (prev : Option Char) (s : List Char) : Option Nat :=
  if isWordB prev then none
  else
    tzAltA s <|> tzAltNum ['g', 'm', 't'] s <|> tzAltNum ['u', 't', 'c'] s <|>
      tzAltDGo s (min (s.takeWhile isAsciiLetter).length 4)

/-- Tail `\s?(?:am|pm|AM|PM)?\b` of the first time regex (no `i` flag there),
with greedy optionals and backtracking; returns extra characters consumed.
The character before this tail is always a digit (a word character). -/
def time1Tail (s : List Char) : Option Nat :=
  let tryAmpm : List Char → Option Nat := fun t =>
    match t with
    | x :: y :: r =>
      if ((x = 'a' && y = 'm') || (x = 'p' && y = 'm') ||
          (x = 'A' && y = 'M') || (x = 'P' && y = 'M')) && !isWordB r.head? then some 2
      else none
    | _ => none
  let noSp : Option Nat :=
    match tryAmpm s with
    | some k => some k
    | none => if !isWordB s.head? then some 0 else none
  match s with
  | c :: r =>
    if isJsSpace c then
      match tryAmpm r with
      | some k => some (1 + k)
      | none => if isWordB r.head? then some 1 else noSp
    else noSp
  | [] => noSp

/-- Matcher for `/\b\d{1,2}:\d{2}(?::\d{2})?\s?(?:am|pm|AM|PM)?\b/g`. -/
def time1Match (prev : Option Char) (s : List Char) : Option Nat :=
  if isWordB prev then none
  else
    match matchD12Colon s with
    | none => none
    | some r1 =>
      match matchDD r1 with
      | none => none
      | some r2 =>
        let base := s.length - r2.length
        let withOpt : Option Nat :=
          match r2 with
          | ':' :: x :: y :: r3 =>
            if x.isDigit && y.isDigit then (time1Tail r3).map (fun k => base + 3 + k) else none
          | _ => none
        match withOpt with
        | some n => some n
        | none => (time1Tail r2).map (fun k => base + k)

/-- Tail `\s?(?:am|pm)\b` of the second time regex (case-insensitive). -/
def time2Tail (t : List Char) : Option Nat :=
  let ampmCI : List Char → Option Nat := fun u =>
    match u with
    | x :: y :: r =>
      if ((x.toLower = 'a' || x.toLower = 'p') && y.toLower = 'm') && !isWordB r.head? then
        some 2
      else none
    | _ => none
  match t with
  | c :: r =>
    if isJsSpace c then
      match ampmCI r with
      | some k => some (1 + k)
      | none => ampmCI (c :: r)
    else ampmCI (c :: r)
  | [] => none

/-- Matcher for `/\b\d{1,2}\s?(?:am|pm)\b/gi`. -/
def time2Match (prev : Option Char) (s : List Char) : Option Nat :=
  if isWordB prev then none
  else
    match s with
    | a :: b :: rest =>
      if a.isDigit && b.isDigit then
        match time2Tail rest with
        | some k => some (2 + k)
        | none => (time2Tail (b :: rest)).map (fun k => 1 + k)
      else if a.isDigit then (time2Tail (b :: rest)).map (fun k => 1 + k)
      else none
    | [a] => if a.isDigit then (time2Tail []).map (fun k => 1 + k) else none
    | [] => none

/-- Matcher for `/\b\d{3,4}hrs?\b/gi`. -/
def hrsMatch (prev : Option Char) (s : List Char) : Option Nat :=
  if isWordB prev then none
  else
    let dRun := (s.takeWhile Char.isDigit).length
    if dRun = 3 || dRun = 4 then
      match matchLitCI ['h', 'r'] (s.drop dRun) with
      | some r2 =>
        match r2 with
        | [] => some (dRun + 2)
        | c :: r3 =>
          if c.toLower = 's' then (if !isWordB r3.head? then some (dRun + 3) else none)
          else if !isWordChar c then some (dRun + 2)
          else none
      | none => none
    else none

/-- Matcher for `/\b\d{2}:\d{2}:\d{2}\b/g`. -/
def hhmmssMatch (prev : Option Char) (s : List Char) : Option Nat :=
  if isWordB prev then none
  else
    match s with
    | a :: b :: x :: c :: d :: y :: e :: f :: rest =>
      if a.isDigit && b.isDigit && x = ':' && c.isDigit && d.isDigit && y = ':' &&
          e.isDigit && f.isDigit && !isWordB rest.head? then some 8
      else none
    | _ => none

/-- Matcher for `/\b(posted|posted on|posted:)\b/gi`, alternatives in source order. -/
def postedMatch (prev : Option Char) (s : List Char) : Option Nat :=
  if isWordB prev then none
  else
    let alt1 : Option Nat :=
      match matchLitCI ['p', 'o', 's', 't', 'e', 'd'] s with
      | some r => if !isWordB r.head? then some 6 else none
      | none => none
    let alt2 : Option Nat :=
      match matchLitCI ['p', 'o', 's', 't', 'e', 'd', ' ', 'o', 'n'] s with
      | some r => if !isWordB r.head? then some 9 else none
      | none => none
    let alt3 : Option Nat :=
      match matchLitCI ['p', 'o', 's', 't', 'e', 'd', ':'] s with
      | some r => if isWordB r.head? then some 7 else none
      | none => none
    alt1 <|> alt2 <|> alt3

/-- Source `replace(/[|–—•]/g, ' ')`. -/
def bulletsToSpace (s : String) : String :=
  (s.data.map (fun c => if c = '|' || c = '–' || c = '—' || c = '•' then ' ' else c)).asString

/-- Month-name alternation of index.js, full forms before abbreviations
(greedy optional groups). -/
def monthForms : List (List String) :=
  [["january", "jan"], ["february", "feb"], ["march", "mar"], ["april", "apr"], ["may"],
   ["june", "jun"], ["july", "jul"], ["august", "aug"], ["september", "sept", "sep"],
   ["october", "oct"], ["november", "nov"], ["december", "dec"]]

def tryForms : List String → List Char → Option Nat
  | [], _ => none
  | f :: rest, s =>
    match matchLitCI f.data s with
    | some r => if !isWordB r.head? then some f.length else tryForms rest s
    | none => tryForms rest s

def monthMatchGo : List (List String) → List Char → Option Nat
  | [], _ => none
  | g :: gs, s =>
    match tryForms g s with
    | some n => some n
    | none => monthMatchGo gs s

/-- Matcher for the month-name pattern of index.js (`\b...\b`, case-insensitive). -/
def monthMatch (prev : Option Char) (s : List Char) : Option Nat :=
  if isWordB prev then none else monthMatchGo monthForms s

def containsMonth (s : String) : Bool := testPat monthMatch s

/-- Test `/:\d{2}/` — a leftover clock-time fragment. -/
def colonDDAt (_prev : Option Char) (s : List Char) : Option Nat :=
  match s with
  | ':' :: a :: b :: _ => if a.isDigit && b.isDigit then some 3 else none
  | _ => none

def hasColonDD (s : String) : Bool := testPat colonDDAt s

/-- Source `replace(/,\s*$/, '')`: drop one trailing comma plus trailing whitespace. -/
def trimTrailingComma (s : String) : String :=
  let rev2 := s.data.reverse.dropWhile isJsSpace
  match rev2 with
  | ',' :: rest => rest.reverse.asString
  | _ => s

/- ## Calendar arithmetic (JS Date, local calendar fields only) -/

/-- A JS `Date` reduced to the local calendar fields this code reads:
`getFullYear` / `getMonth` (0-based) / `getDate`. -/
structure CalDate where
  year : Int
  month0 : Nat
  day : Nat
deriving DecidableEq, Repr

def isLeap (y : Int) : Bool := y % 4 = 0 && (y % 100 ≠ 0 || y % 400 = 0)

def daysInMonth (y : Int) (m0 : Nat) : Nat :=
  if m0 = 1 then (if isLeap y then 29 else 28)
  else if m0 = 3 || m0 = 5 || m0 = 8 || m0 = 10 then 30
  else 31

/-- JS `new Date(year, month, day)` for `month ∈ [0,11]`, `day ∈ [1,31]`:
years 0 to 99 map to 1900+year, and day overflow rolls into the next month. -/
def mkDate (y : Int) (m0 d : Nat) : CalDate :=
  let y1 := if 0 ≤ y && y ≤ 99 then 1900 + y else y
  let dim := daysInMonth y1 m0
  if d > dim then
    if m0 = 11 then ⟨y1 + 1, 0, d - dim⟩ else ⟨y1, m0 + 1, d - dim⟩
  else ⟨y1, m0, d⟩

/-- JS `d.setDate(d.getDate() - 1)`: the previous calendar day. -/
def prevDay (t : CalDate) : CalDate :=
  if t.day > 1 then ⟨t.year, t.month0, t.day - 1⟩
  else if t.month0 = 0 then ⟨t.year - 1, 11, 31⟩
  else ⟨t.year, t.month0 - 1, daysInMonth t.year (t.month0 - 1)⟩

/-- Source expression `` (`0${n}`).slice(-2) `` — last two characters of the zero-prefixed decimal. -/
def pad2 (n : Nat) : String := (("0" ++ toString n).data.reverse.take 2).reverse.asString

/-- Source `formatDateISO(date)`: `` `${y}-${m}-${d}` `` with two-digit month and day. -/
def formatDateISO (t : CalDate) : String :=
  toString t.year ++ "-" ++ pad2 (t.month0 + 1) ++ "-" ++ pad2 t.day

/- ## mm/dd fallback pattern -/

def digitVal (c : Char) : Nat := c.toNat - 48

def natOfDigits (l : List Char) : Nat := l.foldl (fun acc c => 10 * acc + digitVal c) 0

/-- Optional year group `(?:[\/\-](\d{2,4}))?` with the regex's trailing `\b`:
only the whole digit run can match, and only when it has length 2 to 4. -/
def mmddYear (t : List Char) : Option Nat :=
  match t with
  | c :: rest =>
    if c = '/' || c = '-' then
      let run := (rest.takeWhile Char.isDigit).length
      if (2 ≤ run && run ≤ 4) && !isWordB ((rest.drop run).head?) then
        some (natOfDigits (rest.take run))
      else none
    else none
  | [] => none

/-- Day digits (`\d{1,2}`, greedy with backtracking) followed by the optional year
group or the trailing `\b`. -/
def mmddTail (m : Nat) (t : List Char) : Option (Nat × Nat × Option Nat) :=
  let dayTry : Nat → List Char → Option (Nat × Nat × Option Nat) := fun dayVal rest =>
    match mmddYear rest with
    | some y => some (m, dayVal, some y)
    | none => if !isWordB rest.head? then some (m, dayVal, none) else none
  match t with
  | a :: b :: rest =>
    if a.isDigit && b.isDigit then
      match dayTry (10 * digitVal a + digitVal b) rest with
      | some r => some r
      | none => dayTry (digitVal a) (b :: rest)
    else if a.isDigit then dayTry (digitVal a) (b :: rest)
    else none
  | [a] => if a.isDigit then dayTry (digitVal a) [] else none
  | [] => none

/-- Matcher for `/\b(\d{1,2})[\/\-](\d{1,2})(?:[\/\-](\d{2,4}))?\b/` at one position,
returning the captured `(month, day, year?)` groups. -/
def mmddAt (prev : Option Char) (s : List Char) : Option (Nat × Nat × Option Nat) :=
  if isWordB prev then none
  else
    match s with
    | a :: b :: c :: rest =>
      if a.isDigit && b.isDigit && (c = '/' || c = '-') then
        mmddTail (10 * digitVal a + digitVal b) rest
      else if a.isDigit && (b = '/' || b = '-') then mmddTail (digitVal a) (c :: rest)
      else none
    | _ => none

def mmddScanGo : Nat → Option Char → List Char → Option (Nat × Nat × Option Nat)
  | 0, _, _ => none
  | _, _, [] => none
  | fuel + 1, prev, c :: rest =>
    match mmddAt prev (c :: rest) with
    | some r => some r
    | none => mmddScanGo fuel (some c) rest

/-- Source `s.match(/\b(\d{1,2})[\/\-](\d{1,2})(?:[\/\-](\d{2,4}))?\b/)` — first match. -/
def mmddScan (s : String) : Option (Nat × Nat × Option Nat) :=
  mmddScanGo s.data.length none s.data

/- ## The date normalizer (index.js extractDateOnly / parseFlexibleDate) -/

/-- Source `parseFlexibleDate(text)`. `Date.parse` is host-defined, so it is modelled by
an `oracle` mapping a string to the local calendar date of its parse (or `none`
for `NaN`). The retry appends `now.getFullYear()` of a `new Date()` created
inside `parseFlexibleDate` — the wall-clock year, not the caller's reference
instant. -/
def parseFlexibleDate (oracle : String → Option CalDate) (wallYear : Int) (text : String) :
    Option CalDate :=
  if text = "" then none
  else
    match oracle text with
    | some d => some d
    | none => oracle (text ++ " " ++ toString wallYear)

/-- The tail of `extractDateOnly` after the month-preservation check: the flexible
parse, then the `mm/dd` fallback with reference-year default and bounds checks. -/
def flexOrMmdd (oracle : String → Option CalDate) (wallYear : Int) (now : CalDate)
    (s : String) : Option String :=
  match parseFlexibleDate oracle wallYear s with
  | some d => some (formatDateISO d)
  | none =>
    match mmddScan s with
    | some (m, d, yOpt) =>
      let year : Int := match yOpt with | some yv => (yv : Int) | none => now.year
      if 1 ≤ m ∧ m ≤ 12 ∧ 1 ≤ d ∧ d ≤ 31 then some (formatDateISO (mkDate year (m - 1) d))
      else none
    | none => none

/-- Source `extractDateOnly(rawText, now)`. `none` models the `null` return ("unparseable").
`wallYear` is the wall-clock year observed by `parseFlexibleDate`'s own
`new Date()` at call time. -/
def extractDateOnly (oracle : String → Option CalDate) (rawText : String) (now : CalDate)
    (wallYear : Int) : Option String :=
  if rawText = "" then none
  else
    let s1 := collapseWs (jsTrim rawText)
    let lowered := lowerStr s1
    if hasWord "today" lowered then
      some (formatDateISO (mkDate now.year now.month0 now.day))
    else if hasWord "yesterday" lowered then
      let p := prevDay now
      some (formatDateISO (mkDate p.year p.month0 p.day))
    else
      let s2 := gsubFirst matchAtTok " " s1
      let s3 := gsub matchTZ "" s2
      let s4 := gsub time1Match "" s3
      let s5 := gsub time2Match "" s4
      let s6 := gsub hhmmssMatch "" (gsub hrsMatch "" s5)
      let s7 := gsub postedMatch "" s6
      let s8 := bulletsToSpace s7
      let s9 := jsTrim (collapseWs s8)
      if containsMonth s9 then
        let human := jsTrim (trimTrailingComma s9)
        if !hasColonDD human then some human
        else flexOrMmdd oracle wallYear now s9
      else flexOrMmdd oracle wallYear now s9

/-- A host `Date.parse` behavior under which the text `"qwerty 7"` fails to parse
bare but parses once a 4-digit year is appended (as the free-text retry does). -/
def yearSensitiveParse : String → Option CalDate := fun s =>
  if s = "qwerty 7 2025" then some ⟨2025, 0, 7⟩
  else if s = "qwerty 7 2026" then some ⟨2026, 0, 7⟩
  else none

/-- The row sequence of the basic-hierarchy table-walk test. -/
def basicHierarchyRows : List (List String) :=
  [["Mon 1 Jan"], ["09:00 - 10:00", "Ward Round", "Doctor", "", "Dr. A"], ["Doctor", "Dr. B"]]

/- ## Helper lemmas -/

theorem dash_mem_formatDateISO (t : CalDate) : '-' ∈ (formatDateISO t).data := by
  unfold formatDateISO
  simp [String.data_append, List.mem_append]

theorem formatDateISO_ne_human (t : CalDate) : formatDateISO t ≠ "Dec 20, 2025" := by
  intro h
  have hm := dash_mem_formatDateISO t
  rw [h] at hm
  exact absurd hm (by decide)

theorem processJobs_store_mono (js : List Job) (st : List String) :
    ∀ x ∈ st, x ∈ (processJobs js st).2 := by
  induction js generalizing st with
  | nil => intro x hx; simpa [processJobs] using hx
  | cons j rest ih =>
    intro x hx
    by_cases hd : j.date = "Unknown Date"
    · simp only [processJobs, if_pos hd]
      exact ih st x hx
    · by_cases hm : jobIdOf j ∈ st
      · simp only [processJobs, if_neg hd, if_pos hm]
        exact ih st x hx
      · simp only [processJobs, if_neg hd, if_neg hm]
        exact ih (jobIdOf j :: st) x (List.mem_cons_of_mem _ hx)

theorem processJobs_covers (js : List Job) (st : List String) :
    ∀ j ∈ js, j.date ≠ "Unknown Date" → jobIdOf j ∈ (processJobs js st).2 := by
  induction js generalizing st with
  | nil => intro j hj; exact absurd hj (List.not_mem_nil j)
  | cons h rest ih =>
    intro j hj hdate
    rcases List.mem_cons.mp hj with heq | hmem
    · subst heq
      by_cases hm : jobIdOf j ∈ st
      · by_cases hd : j.date = "Unknown Date"
        · exact absurd hd hdate
        · simp only [processJobs, if_neg hd, if_pos hm]
          exact processJobs_store_mono rest st _ hm
      · simp only [processJobs, if_neg hdate, if_neg hm]
        exact processJobs_store_mono rest (jobIdOf j :: st) _ (List.mem_cons_self _ _)
    · by_cases hd : h.date = "Unknown Date"
      · simp only [processJobs, if_pos hd]
        exact ih st j hmem hdate
      · by_cases hm : jobIdOf h ∈ st
        · simp only [processJobs, if_neg hd, if_pos hm]
          exact ih st j hmem hdate
        · simp only [processJobs, if_neg hd, if_neg hm]
          exact ih (jobIdOf h :: st) j hmem hdate

theorem processJobs_all_seen (js : List Job) (st : List String)
    (h : ∀ j ∈ js, j.date = "Unknown Date" ∨ jobIdOf j ∈ st) :
    processJobs js st = ([], st) := by
  induction js with
  | nil => rfl
  | cons j rest ih =>
    rcases h j (List.mem_cons_self _ _) with hd | hm
    · simp only [processJobs, if_pos hd]
      exact ih fun x hx => h x (List.mem_cons_of_mem _ hx)
    · by_cases hd : j.date = "Unknown Date"
      · simp only [processJobs, if_pos hd]
        exact ih fun x hx => h x (List.mem_cons_of_mem _ hx)
      · simp only [processJobs, if_neg hd, if_pos hm]
        exact ih fun x hx => h x (List.mem_cons_of_mem _ hx)

theorem processJobs_no_dup (js : List Job) (st : List String) (x : String) (hx : x ∈ st) :
    (processJobs js st).1.countP (fun j => jobIdOf j == x) = 0 := by
  induction js generalizing st with
  | nil => simp [processJobs]
  | cons h rest ih =>
    by_cases hd : h.date = "Unknown Date"
    · simp only [processJobs, if_pos hd]
      exact ih st hx
    · by_cases hm : jobIdOf h ∈ st
      · simp only [processJobs, if_neg hd, if_pos hm]
        exact ih st hx
      · have hne : (jobIdOf h == x) = false := by
          rw [beq_eq_false_iff_ne]
          intro e
          exact hm (e ▸ hx)
        simp only [processJobs, if_neg hd, if_neg hm, List.countP_cons, hne]
        simpa using ih (jobIdOf h :: st) (List.mem_cons_of_mem _ hx)

theorem processJobs_count_one (js : List Job) (st : List String) :
    ∀ j ∈ js, j.date ≠ "Unknown Date" → jobIdOf j ∉ st →
      (processJobs js st).1.countP (fun x => jobIdOf x == jobIdOf j) = 1 := by
  induction js generalizing st with
  | nil => intro j hj; exact absurd hj (List.not_mem_nil j)
  | cons h rest ih =>
    intro j hj hdate hnotin
    rcases List.mem_cons.mp hj with heq | hmem
    · subst heq
      simp only [processJobs, if_neg hdate, if_neg hnotin]
      rw [List.countP_cons]
      have h0 := processJobs_no_dup rest (jobIdOf j :: st) (jobIdOf j)
        (List.mem_cons_self _ _)
      rw [h0, beq_self_eq_true]
      rfl
    · by_cases hd : h.date = "Unknown Date"
      · simp only [processJobs, if_pos hd]
        exact ih st j hmem hdate hnotin
      · by_cases hm : jobIdOf h ∈ st
        · simp only [processJobs, if_neg hd, if_pos hm]
          exact ih st j hmem hdate hnotin
        · by_cases he : jobIdOf h = jobIdOf j
          · simp only [processJobs, if_neg hd, if_neg hm]
            rw [List.countP_cons]
            have h0 := processJobs_no_dup rest (jobIdOf h :: st) (jobIdOf j)
              (he ▸ List.mem_cons_self _ _)
            rw [h0, he, beq_self_eq_true]
            rfl
          · have hne : (jobIdOf h == jobIdOf j) = false := by
              rw [beq_eq_false_iff_ne]; exact he
            simp only [processJobs, if_neg hd, if_neg hm, List.countP_cons, hne]
            have hnotin2 : jobIdOf j ∉ jobIdOf h :: st := by
              intro hc
              rcases List.mem_cons.mp hc with hc1 | hc2
              · exact he hc1.symm
              · exact hnotin hc2
            simpa using ih (jobIdOf h :: st) j hmem hdate hnotin2

theorem processJobs_new_dates (js : List Job) (st : List String) :
    ∀ j ∈ (processJobs js st).1, j.date ≠ "Unknown Date" := by
  induction js generalizing st with
  | nil => intro j hj; exact absurd hj (List.not_mem_nil j)
  | cons h rest ih =>
    intro j hj
    by_cases hd : h.date = "Unknown Date"
    · rw [processJobs, if_pos hd] at hj
      exact ih st j hj
    · by_cases hm : jobIdOf h ∈ st
      · rw [processJobs, if_neg hd, if_pos hm] at hj
        exact ih st j hj
      · rw [processJobs, if_neg hd, if_neg hm] at hj
        rcases List.mem_cons.mp hj with heq | hmem
        · subst heq; exact hd
        · exact ih (jobIdOf h :: st) j hmem

theorem processJobs_store_from (js : List Job) (st : List String) :
    ∀ x ∈ (processJobs js st).2,
      x ∈ st ∨ ∃ j, j ∈ (processJobs js st).1 ∧ x = jobIdOf j := by
  induction js generalizing st with
  | nil => intro x hx; exact Or.inl (by simpa [processJobs] using hx)
  | cons h rest ih =>
    intro x hx
    by_cases hd : h.date = "Unknown Date"
    · rw [processJobs, if_pos hd] at hx ⊢
      exact ih st x hx
    · by_cases hm : jobIdOf h ∈ st
      · rw [processJobs, if_neg hd, if_pos hm] at hx ⊢
        exact ih st x hx
      · rw [processJobs, if_neg hd, if_neg hm] at hx ⊢
        rcases ih (jobIdOf h :: st) x hx with hin | ⟨j, hj, hxe⟩
        · rcases List.mem_cons.mp hin with heq | hst
          · exact Or.inr ⟨h, List.mem_cons_self _ _, heq⟩
          · exact Or.inl hst
        · exact Or.inr ⟨j, List.mem_cons_of_mem _ hj, hxe⟩

/- ## Claim theorems -/

/-- Claim C1, counterexample: on the basic-hierarchy rows with target role
"Doctor", the table walk does NOT produce the claimed pair whose second record
holds "Dr. B" — the role-match row `["Doctor","Dr. B"]` has no column index 2,
so the code's fallback applies. -/
theorem basic_hierarchy_not_drB :
    tableWalk "Doctor" basicHierarchyRows ≠
      [⟨"Mon 1 Jan", "Ward Round", "Dr. A"⟩, ⟨"Mon 1 Jan", "Ward Round", "Dr. B"⟩] := by
  decide

/-- Claim C1, amended: the walk emits exactly two records in order, both dated
"Mon 1 Jan" with event "Ward Round"; the first (time-range row) holds "Dr. A"
and the second (role-match row) holds "Unassigned", because the role-match
row's designated name column (index 2) is absent from the 2-cell row. -/
theorem basic_hierarchy_walk :
    tableWalk "Doctor" basicHierarchyRows =
      [⟨"Mon 1 Jan", "Ward Round", "Dr. A"⟩, ⟨"Mon 1 Jan", "Ward Round", "Unassigned"⟩] := by
  decide

/-- Claim C2: for every parse oracle, reference date and wall-clock year,
`extractDateOnly "Dec 20, 2025 at 3:30pm EST"` never returns "Dec 20, 2025":
the case-insensitive timezone regex strips the word "Dec" itself, so the
month-preserving branch is unreachable and the result is an ISO re-parse
(which contains a dash) or null. -/
theorem dec20_never_preserved (oracle : String → Option CalDate) (now : CalDate)
    (wallYear : Int) :
    extractDateOnly oracle "Dec 20, 2025 at 3:30pm EST" now wallYear ≠ some "Dec 20, 2025" := by
  have hred : extractDateOnly oracle "Dec 20, 2025 at 3:30pm EST" now wallYear
      = flexOrMmdd oracle wallYear now "20, 2025" := rfl
  rw [hred]
  unfold flexOrMmdd
  cases hp : parseFlexibleDate oracle wallYear "20, 2025" with
  | some d =>
    intro h
    exact formatDateISO_ne_human d (Option.some.inj h)
  | none =>
    rw [show mmddScan "20, 2025" = none from rfl]
    exact Option.noConfusion

/-- Claim C2, witness at a concrete oracle, reference date and wall-clock year. -/
theorem dec20_never_preserved_witness :
    extractDateOnly (fun _ => none) "Dec 20, 2025 at 3:30pm EST" ⟨2025, 11, 20⟩ 2025 ≠
      some "Dec 20, 2025" :=
  dec20_never_preserved (fun _ => none) ⟨2025, 11, 20⟩ 2025

/-- Claim C3: running the dedupe-and-persist loop a second time over the same
candidates, against the store state left by the first run, yields an empty
"new" list and leaves the store untouched (every identity is already present,
so every candidate is skipped without a write); and on the first run, every
usable candidate whose identity is absent from the starting store is upserted
into the store and appears in the returned "new" list exactly once
(read-after-write visibility skips in-run duplicates). -/
theorem dedupe_idempotent (js : List Job) (st : List String) :
    (processJobs js (processJobs js st).2).1 = [] ∧
    (processJobs js (processJobs js st).2).2 = (processJobs js st).2 ∧
    ∀ j ∈ js, j.date ≠ "Unknown Date" → jobIdOf j ∉ st →
      jobIdOf j ∈ (processJobs js st).2 ∧
      (processJobs js st).1.countP (fun x => jobIdOf x == jobIdOf j) = 1 := by
  have hall : ∀ j ∈ js, j.date = "Unknown Date" ∨ jobIdOf j ∈ (processJobs js st).2 := by
    intro j hj
    by_cases hd : j.date = "Unknown Date"
    · exact Or.inl hd
    · exact Or.inr (processJobs_covers js st j hj hd)
  have hsecond := processJobs_all_seen js (processJobs js st).2 hall
  refine ⟨by rw [hsecond], by rw [hsecond], ?_⟩
  intro j hj hdate hnotin
  exact ⟨processJobs_covers js st j hj hdate, processJobs_count_one js st j hj hdate hnotin⟩

/-- Claim C3, witness: instantiation at one concrete candidate and the empty store. -/
theorem dedupe_idempotent_witness :
    jobIdOf ⟨"Mon 1 Jan", "Ward Round", "Dr. A"⟩ ∈
      (processJobs [⟨"Mon 1 Jan", "Ward Round", "Dr. A"⟩] []).2 ∧
    (processJobs [⟨"Mon 1 Jan", "Ward Round", "Dr. A"⟩] []).1.countP
      (fun x => jobIdOf x == jobIdOf ⟨"Mon 1 Jan", "Ward Round", "Dr. A"⟩) = 1 :=
  (dedupe_idempotent [⟨"Mon 1 Jan", "Ward Round", "Dr. A"⟩] []).2.2
    ⟨"Mon 1 Jan", "Ward Round", "Dr. A"⟩ (List.mem_cons_self _ _) (by decide)
    (List.not_mem_nil _)

/-- Claim C4: for every parse oracle under which the host parser rejects "???"
(bare and with the appended reference-path year), every reference date and
wall-clock year, the normalizer returns the unparseable sentinel (modelled by
`none`, the code's `null`) on `""` and on `"???"`. The embedding is a total
function, reflecting that no exception escapes `extractDateOnly`. -/
theorem unparseable_fallback (oracle : String → Option CalDate) (now : CalDate) (wallYear : Int)
    (h1 : oracle "???" = none) (h2 : oracle ("???" ++ " " ++ toString wallYear) = none) :
    extractDateOnly oracle "" now wallYear = none ∧
    extractDateOnly oracle "???" now wallYear = none := by
  refine ⟨rfl, ?_⟩
  have hred : extractDateOnly oracle "???" now wallYear
      = flexOrMmdd oracle wallYear now "???" := rfl
  rw [hred]
  unfold flexOrMmdd parseFlexibleDate
  rw [if_neg (by decide : ¬("???" : String) = ""), h1, h2]
  rw [show mmddScan "???" = none from rfl]

/-- Claim C4, witness at a concrete rejecting oracle. -/
theorem unparseable_fallback_witness :
    extractDateOnly (fun _ => none) "" ⟨2025, 5, 15⟩ 2025 = none ∧
    extractDateOnly (fun _ => none) "???" ⟨2025, 5, 15⟩ 2025 = none :=
  unparseable_fallback (fun _ => none) ⟨2025, 5, 15⟩ 2025 rfl rfl

/-- Claim C5: an always-failing operation wrapped with attempts = 3 and base
delay b is invoked exactly 3 times; the retry observer fires exactly twice,
after the first and second failures, with delays b·2⁰ and b·2¹ and the
respective errors; and the third error propagates unmodified. -/
theorem retry_exhaustion {E A : Type} (errs : Nat → E) (b : Nat) :
    retry (fun k => (Except.error (errs k) : Except E A)) 3 b =
      (Except.error (errs 2), 3, [(1, errs 0, b * 2 ^ 0), (2, errs 1, b * 2 ^ 1)]) := rfl

/-- Claim C5, witness at concrete errors and base delay. -/
theorem retry_exhaustion_witness :
    retry (fun k => (Except.error k : Except Nat Unit)) 3 500 =
      (Except.error 2, 3, [(1, 0, 500 * 2 ^ 0), (2, 1, 500 * 2 ^ 1)]) :=
  retry_exhaustion (fun k => k) 500

set_option maxRecDepth 8000 in
set_option maxHeartbeats 1600000 in
/-- Claim C6: the record identity is deterministic (a pure function of its
three fields), and the pipe delimiter prevents field-boundary collisions:
`["a","bc",""]` and `["ab","c",""]` hash differently, as do triples differing
only in the role-holder ("Dr. A" vs "Dr. B"). -/
theorem createJobId_identity :
    (∀ d e n, createJobId d e n = createJobId d e n) ∧
    createJobId "a" "bc" "" ≠ createJobId "ab" "c" "" ∧
    createJobId "Mon 1 Jan" "Ward Round" "Dr. A" ≠
      createJobId "Mon 1 Jan" "Ward Round" "Dr. B" :=
  ⟨fun _ _ _ => rfl, by decide, by decide⟩

/-- Claim C7: with the (x, t) arguments fixed, the result of `extractDateOnly`
still depends on the wall-clock year read by `parseFlexibleDate`'s own
`new Date()`: under a host parse that needs the appended year, evaluating in
2025 and in 2026 returns different dates. -/
theorem extractDateOnly_wall_clock_dependent :
    extractDateOnly yearSensitiveParse "qwerty 7" ⟨2024, 5, 15⟩ 2025 = some "2025-01-07" ∧
    extractDateOnly yearSensitiveParse "qwerty 7" ⟨2024, 5, 15⟩ 2026 = some "2026-01-07" ∧
    extractDateOnly yearSensitiveParse "qwerty 7" ⟨2024, 5, 15⟩ 2025 ≠
      extractDateOnly yearSensitiveParse "qwerty 7" ⟨2024, 5, 15⟩ 2026 :=
  ⟨rfl, rfl, by decide⟩

/-- Claim C8, counterexample: part_000's entrypoint exits with code 0 even when
`mainScraper` returns an error result, so an error-result run does terminate
with exit code 0. -/
theorem part000_error_exits_zero :
    exitCodePart000 (ScrapeResult.error "Firebase init failed") = 0 := rfl

/-- Claim C8, amended: index.js's entrypoint exits 0 exactly on success, 2 on a
business-failure result and 1 on a top-level throw; part_000's entrypoint,
however, always exits 0, regardless of the scraper's result. -/
theorem exit_codes :
    (∀ n, exitCodeIndex (Except.ok (RunResult.ok n)) = 0) ∧
    (∀ m, exitCodeIndex (Except.ok (RunResult.fail m)) = 2) ∧
    (∀ e, exitCodeIndex (Except.error e) = 1) ∧
    (∀ r, exitCodePart000 r = 0) :=
  ⟨fun _ => rfl, fun _ => rfl, fun _ => rfl, fun _ => rfl⟩

/-- Claim C9: the walker's time-range branch can emit a record whose date is
still the sentinel "Unknown Date" (it only checks the event label), yet every
record returned by the dedupe loop has a non-sentinel date, and every key in
the final store either was already there or is the identity of a returned
record — so no sentinel-date candidate is ever hashed or persisted. -/
theorem sentinel_dates_filtered :
    (tableWalk "Doctor" [["09:00 - 10:00", "Event X", "Doctor", "", "Dr. A"]] =
      [⟨"Unknown Date", "Event X", "Dr. A"⟩]) ∧
    (∀ js st, ∀ j ∈ (processJobs js st).1, j.date ≠ "Unknown Date") ∧
    (∀ js st, ∀ x ∈ (processJobs js st).2,
      x ∈ st ∨ ∃ j, j ∈ (processJobs js st).1 ∧ x = jobIdOf j) :=
  ⟨by decide, fun js st => processJobs_new_dates js st, fun js st => processJobs_store_from js st⟩

/-- Claim C9, witness: instantiation of the store part at a concrete run. -/
theorem sentinel_dates_filtered_witness :
    ("k" : String) ∈ (["k"] : List String) ∨
    ∃ j, j ∈ (processJobs [] ["k"]).1 ∧ "k" = jobIdOf j :=
  sentinel_dates_filtered.2.2 [] ["k"] "k" (by decide)

/-- Claim C10: called with attempts ≤ 0, the retry wrapper's while loop never
runs: the wrapped operation and the observer are never invoked, no error is
raised, and the call resolves to undefined (`.ok none`). -/
theorem retry_nonpositive {E A : Type} (fn : Nat → Except E A) (attempts : Int) (b : Nat)
    (h : attempts ≤ 0) :
    retry fn attempts b = (Except.ok none, 0, []) := by
  unfold retry
  rw [Int.toNat_of_nonpos h]
  rfl

/-- Claim C10, witness at attempts = 0 with a concrete failing operation. -/
theorem retry_nonpositive_witness :
    retry (fun _ => (Except.error "boom" : Except String Nat)) 0 500 =
      (Except.ok none, 0, []) :=
  retry_nonpositive (fun _ => Except.error "boom") 0 500 (by decide)
